import Mathlib

/-!
Verification of the PodSet operator's reconcile loop
(`controllers/podset_controller.go`) against its specification.

The controller is shallowly embedded: Kubernetes objects become plain
structures, the client calls (`Get`, `List`, `Status().Update`, `Create`,
`Delete`) become an environment record that supplies their results, and a
reconcile pass returns the sequence of store calls it successfully performed
together with its `ctrl.Result`/error outcome.  Go `int32` counters are
modelled as `Int` (the counts involved are pod-list lengths, far below 2^31),
and the Go string type `corev1.PodPhase` is modelled as `String`.
-/

/-- Pod lifecycle container spec entry (`corev1.Container`): only the fields
the controller sets in `newPodForCR`. -/
structure Container where
  name : String
  image : String
  command : List String
deriving DecidableEq

/-- Object metadata of a pod (`metav1.ObjectMeta`), restricted to the fields
the controller reads or writes: `Name`, `GenerateName`, `Namespace` (here
`nspace`, since `namespace` is reserved), `Labels` (an association list, as
the Go code only ever builds two-entry literal maps), `DeletionTimestamp`
(nullable), and the controller owner reference set by
`controllerutil.SetControllerReference` (modelled as the owner name). -/
structure PodMeta where
  name : String
  generateName : String
  nspace : String
  labels : List (String × String)
  deletionTimestamp : Option Nat
  ownerRef : Option String
deriving DecidableEq

/-- Pod spec (`corev1.PodSpec`), restricted to the container list. -/
structure PodSpec where
  containers : List Container
deriving DecidableEq

/-- Pod status (`corev1.PodStatus`): the phase, a string in Go
(`corev1.PodRunning = "Running"`, `corev1.PodPending = "Pending"`, ...). -/
structure PodStatus where
  phase : String
deriving DecidableEq

/-- A pod (`corev1.Pod`). -/
structure Pod where
  metadata : PodMeta
  spec : PodSpec
  status : PodStatus
deriving DecidableEq

/-- Desired state of a PodSet (`PodSetSpec`), Go field `Replicas int32`. -/
structure PodSetSpec where
  replicas : Int
deriving DecidableEq

/-- Observed state of a PodSet (`PodSetStatus`): Go fields `PodNames []string`
and `AvailableReplicas int32`. -/
structure PodSetStatus where
  podNames : List String
  availableReplicas : Int
deriving DecidableEq

/-- A PodSet custom resource (`podsetv1alpha1.PodSet`). -/
structure PodSet where
  name : String
  nspace : String
  spec : PodSetSpec
  status : PodSetStatus
deriving DecidableEq

/-- Result of fetching the PodSet by key (`r.Get`, lines 59-68): found, a
NotFound error, or any other read error. -/
inductive GetResult where
  | found (ps : PodSet)
  | notFound
  | getError
deriving DecidableEq

/-- A store call successfully performed by a reconcile pass. -/
inductive ReconcileOp where
  | listPods (nspace : String) (selector : List (String × String))
  | updateStatus (ps : PodSet)
  | createPod (pod : Pod)
  | deletePod (pod : Pod)
deriving DecidableEq

/-- Outcome of a pass: `ctrl.Result{}, nil` (done), `ctrl.Result{Requeue:
true}, nil` (requeue), or `ctrl.Result{}, err` (err). -/
inductive ReconcileResult where
  | done
  | requeue
  | err
deriving DecidableEq

/-- A reconcile pass's observable behaviour: the successful store calls, in
order, and the returned result. -/
structure ReconcileOutcome where
  ops : List ReconcileOp
  result : ReconcileResult
deriving DecidableEq

/-- Environment supplying the results of the external store calls of one
pass: the fetch result, the pod-list result (`Except.error` models a failing
`r.List`), and success flags for status update, owner-reference attachment,
create, and delete. -/
structure Env where
  get : GetResult
  list : Except Unit (List Pod)
  updateOk : Bool
  setOwnerOk : Bool
  createOk : Bool
  deleteOk : Bool

/-- Ownership label pair built at lines 73-76 (and again in `newPodForCR`,
lines 148-151): exactly the map literal from the source. -/
def podSetLabels (ps : PodSet) : List (String × String) :=
  [("app", ps.name), ("version", "v0.1")]

/-- Available-pod filter, lines 84-93: skip pods with a non-nil
`DeletionTimestamp`, keep pods whose phase is Running or Pending, preserving
list order. -/
def availablePods (items : List Pod) : List Pod :=
  items.filter fun pod =>
    if pod.metadata.deletionTimestamp ≠ none then false
    else decide (pod.status.phase = "Running") || decide (pod.status.phase = "Pending")

/-- Status computation, lines 94-104: `numAvailable := int32(len(available))`
and `availableNames` collected from `available` in order. -/
def computeStatus (items : List Pod) : PodSetStatus :=
  let available := availablePods items
  { podNames := available.map fun pod => pod.metadata.name
    availableReplicas := (available.length : Int) }

/-- Pod factory `newPodForCR`, lines 147-168: deterministic template with
`GenerateName = cr.Name + "-pod"`, the owner's namespace, the ownership
label pair, and the fixed busybox container. -/
def newPodForCR (cr : PodSet) : Pod :=
  { metadata :=
      { name := ""
        generateName := cr.name ++ "-pod"
        nspace := cr.nspace
        labels := podSetLabels cr
        deletionTimestamp := none
        ownerRef := none }
    spec := { containers := [{ name := "busybox", image := "busybox", command := ["sleep", "3600"] }] }
    status := { phase := "" } }

/-- Effect of `controllerutil.SetControllerReference(podSet, pod, r.Scheme)`
(line 133) on the pod: record the owner. -/
def setControllerReference (owner : PodSet) (pod : Pod) : Pod :=
  { pod with metadata := { pod.metadata with ownerRef := some owner.name } }

/-- Delete loop body, lines 118-126.  Note the source returns
`ctrl.Result{Requeue: true}, nil` INSIDE the `for` body, so the loop body
runs at most once: the first pod is deleted and the pass returns.  `none`
means the loop fell through (empty `dpods`). -/
def deleteLoop (deleteOk : Bool) : List Pod → Option (List ReconcileOp × ReconcileResult)
  | [] => none
  | dpod :: _ =>
    if !deleteOk then some ([], ReconcileResult.err)
    else some ([ReconcileOp.deletePod dpod], ReconcileResult.requeue)

/-- Scale-up branch, lines 128-142: if fewer pods are available than desired,
build one pod, attach the owner reference (an error there aborts the pass),
create it, and requeue on success; otherwise fall through to
`ctrl.Result{}, nil` (line 144). -/
def scaleUpPhase (env : Env) (podSet : PodSet) (numAvailable : Int) :
    List ReconcileOp × ReconcileResult :=
  if numAvailable < podSet.spec.replicas then
    let pod := newPodForCR podSet
    if !env.setOwnerOk then ([], ReconcileResult.err)
    else
      let pod2 := setControllerReference podSet pod
      if !env.createOk then ([], ReconcileResult.err)
      else ([ReconcileOp.createPod pod2], ReconcileResult.requeue)
  else ([], ReconcileResult.done)

/-- Scaling decision, lines 114-144: scale-down branch first (taking the
prefix `available[:diff]` of the listing; `List.take` truncates where the Go
slice would panic for a negative replica count), then the scale-up branch.
When `deleteLoop` returns, its ops and result are the pass's; when it falls
through, control reaches the scale-up check exactly as in the source. -/
def scalePhase (env : Env) (podSet : PodSet) (available : List Pod) (numAvailable : Int) :
    List ReconcileOp × ReconcileResult :=
  if numAvailable > podSet.spec.replicas then
    let diff := numAvailable - podSet.spec.replicas
    let dpods := available.take diff.toNat
    match deleteLoop env.deleteOk dpods with
    | some r => r
    | none => scaleUpPhase env podSet numAvailable
  else scaleUpPhase env podSet numAvailable

/-- One reconcile pass, `Reconcile` lines 55-145: fetch (NotFound ⇒ done,
other error ⇒ err), list owned pods (error ⇒ err), compute status, update it
when it differs (`reflect.DeepEqual`, lines 105-112; a failing update aborts
the pass), then run the scaling decision against the pre-update available
list. -/
def reconcile (env : Env) : ReconcileOutcome :=
  match env.get with
  | GetResult.notFound => { ops := [], result := ReconcileResult.done }
  | GetResult.getError => { ops := [], result := ReconcileResult.err }
  | GetResult.found podSet =>
    match env.list with
    | Except.error _ => { ops := [], result := ReconcileResult.err }
    | Except.ok items =>
      let available := availablePods items
      let numAvailable : Int := (available.length : Int)
      let status := computeStatus items
      let listOp := ReconcileOp.listPods podSet.nspace (podSetLabels podSet)
      if podSet.status ≠ status then
        if !env.updateOk then { ops := [listOp], result := ReconcileResult.err }
        else
          let podSet2 : PodSet := { podSet with status := status }
          let scaled := scalePhase env podSet2 available numAvailable
          { ops := listOp :: ReconcileOp.updateStatus podSet2 :: scaled.fst
            result := scaled.snd }
      else
        let scaled := scalePhase env podSet available numAvailable
        { ops := listOp :: scaled.fst, result := scaled.snd }

/-- Does a pod carry every label of the selector set?  This is
`labels.SelectorFromSet(podSetLabels).Matches` restricted to the two-entry
sets the controller builds. -/
def matchesLabels (sel : List (String × String)) (pod : Pod) : Bool :=
  sel.all fun kv => decide (pod.metadata.labels.lookup kv.fst = some kv.snd)

/-- External store contents relevant to one PodSet key: the PodSet object (or
absent) and all pods in the store. -/
structure Store where
  podset : Option PodSet
  pods : List Pod
deriving DecidableEq

/-- Result of `r.List` with `listOpts` (lines 78-80): pods in the PodSet's
namespace matching the ownership label selector, in store order. -/
def listedPods (s : Store) (ps : PodSet) : List Pod :=
  s.pods.filter fun pod =>
    decide (pod.metadata.nspace = ps.nspace) && matchesLabels (podSetLabels ps) pod

/-- Environment a fault-free store presents to a pass: the fetch returns the
stored PodSet (or NotFound), the list returns the owned pods, and every
store call succeeds. -/
def envOfStore (s : Store) : Env :=
  { get := match s.podset with
      | none => GetResult.notFound
      | some ps => GetResult.found ps
    list := match s.podset with
      | none => Except.error ()
      | some ps => Except.ok (listedPods s ps)
    updateOk := true
    setOwnerOk := true
    createOk := true
    deleteOk := true }

/-- Effect of one successful store call on the store. -/
def applyOp (s : Store) : ReconcileOp → Store
  | ReconcileOp.listPods _ _ => s
  | ReconcileOp.updateStatus ps => { s with podset := some ps }
  | ReconcileOp.createPod pod => { s with pods := s.pods ++ [pod] }
  | ReconcileOp.deletePod pod =>
    { s with pods := s.pods.filter fun q =>
        !(decide (q.metadata.name = pod.metadata.name) &&
          decide (q.metadata.nspace = pod.metadata.nspace)) }

/-- Effect of a sequence of store calls, in order. -/
def applyOps (s : Store) : List ReconcileOp → Store
  | [] => s
  | op :: rest => applyOps (applyOp s op) rest

/-- One reconcile pass driven by a fault-free store. -/
def step (s : Store) : ReconcileOutcome :=
  reconcile (envOfStore s)

/-- Store contents after one fault-free pass. -/
def postStore (s : Store) : Store :=
  applyOps s (step s).ops

/-- Classifier: is the op a pod creation? -/
def ReconcileOp.isCreate : ReconcileOp → Bool
  | ReconcileOp.createPod _ => true
  | _ => false

/-- Classifier: is the op a pod deletion? -/
def ReconcileOp.isDelete : ReconcileOp → Bool
  | ReconcileOp.deletePod _ => true
  | _ => false

/-- Classifier: is the op a status update? -/
def ReconcileOp.isUpdate : ReconcileOp → Bool
  | ReconcileOp.updateStatus _ => true
  | _ => false

/-- Classifier: does the op mutate the store (create, delete, or status
update — everything but the list read)? -/
def ReconcileOp.isMutation (op : ReconcileOp) : Bool :=
  op.isCreate || op.isDelete || op.isUpdate

/-- PodSet object as the store holds it after the pass's status updates: the
last `updateStatus` op wins, starting from the fetched object. -/
def finalPodSet (ps : PodSet) : List ReconcileOp → PodSet
  | [] => ps
  | ReconcileOp.updateStatus ps2 :: rest => finalPodSet ps2 rest
  | _ :: rest => finalPodSet ps rest

/-- Availability predicate in the specification's words: null deletion marker
and phase Pending or Running. -/
def claimAvailable (pod : Pod) : Bool :=
  decide (pod.metadata.deletionTimestamp = none) &&
    (decide (pod.status.phase = "Pending") || decide (pod.status.phase = "Running"))

/-- Fetched PodSet with its status replaced by the freshly computed one
(the object passed to `r.Status().Update`, lines 106-107). -/
def updatedPS (s : Store) (ps : PodSet) : PodSet :=
  { ps with status := computeStatus (listedPods s ps) }

/-- Store contents after a pass whose only mutation was that status update. -/
def updatedStore (s : Store) (ps : PodSet) : Store :=
  { s with podset := some (updatedPS s ps) }

/-- Concrete pod in namespace default carrying the ownership labels of the
PodSet named example-podset. -/
def mkPod (nm : String) (ph : String) : Pod :=
  { metadata :=
      { name := nm, generateName := "", nspace := "default"
        labels := [("app", "example-podset"), ("version", "v0.1")]
        deletionTimestamp := none, ownerRef := none }
    spec := { containers := [] }
    status := { phase := ph } }

/-- Five available (Running, no deletion marker) pods. -/
def fivePods : List Pod :=
  [mkPod "pod-a" "Running", mkPod "pod-b" "Running", mkPod "pod-c" "Running",
   mkPod "pod-d" "Running", mkPod "pod-e" "Running"]

/-- PodSet desiring 2 replicas, with an empty recorded status. -/
def scaleDownPS : PodSet :=
  { name := "example-podset", nspace := "default"
    spec := { replicas := 2 }, status := { podNames := [], availableReplicas := 0 } }

/-- Scale-down scenario: 5 available pods, 2 desired, every store call
succeeding. -/
def scaleDownEnv : Env :=
  { get := GetResult.found scaleDownPS, list := Except.ok fivePods
    updateOk := true, setOwnerOk := true, createOk := true, deleteOk := true }

/-- Same scale-down scenario but with the status update failing. -/
def statusFailEnv : Env :=
  { get := GetResult.found scaleDownPS, list := Except.ok fivePods
    updateOk := false, setOwnerOk := true, createOk := true, deleteOk := true }

/-- PodSet desiring 1 replica in namespace ns1 (used for factory and
scale-up witnesses). -/
def demoPS : PodSet :=
  { name := "demo", nspace := "ns1", spec := { replicas := 1 },
    status := { podNames := [], availableReplicas := 0 } }

/-- Scale-up scenario: no pods at all, 1 desired. -/
def upEnv : Env :=
  { get := GetResult.found demoPS, list := Except.ok [], updateOk := true,
    setOwnerOk := true, createOk := true, deleteOk := true }

/-- A store already converged: one owned Running pod, desired 1, status
recorded. -/
def storeDone : Store :=
  { podset := some { name := "x", nspace := "default", spec := { replicas := 1 },
                     status := { podNames := ["p1"], availableReplicas := 1 } }
    pods := [{ metadata := { name := "p1", generateName := "", nspace := "default",
                             labels := [("app", "x"), ("version", "v0.1")],
                             deletionTimestamp := none, ownerRef := none }
               spec := { containers := [] }, status := { phase := "Running" } }] }

/-- Case analysis for the scale-up branch: it falls through with no op
(done), aborts with no op (err), or creates exactly the factory pod with the
owner reference attached (requeue). -/
theorem scaleUpPhase_shape (env : Env) (ps : PodSet) (n : Int) :
    scaleUpPhase env ps n = ([], ReconcileResult.done) ∨
    scaleUpPhase env ps n = ([], ReconcileResult.err) ∨
    scaleUpPhase env ps n =
      ([ReconcileOp.createPod (setControllerReference ps (newPodForCR ps))],
        ReconcileResult.requeue) := by
  simp only [scaleUpPhase]
  split
  · split
    · exact Or.inr (Or.inl rfl)
    · split
      · exact Or.inr (Or.inl rfl)
      · exact Or.inr (Or.inr rfl)
  · exact Or.inl rfl

/-- Case analysis for the whole scaling decision: no op (done or err), one
deletion (requeue), or one creation (requeue). -/
theorem scalePhase_shape (env : Env) (ps : PodSet) (a : List Pod) (n : Int) :
    scalePhase env ps a n = ([], ReconcileResult.done) ∨
    scalePhase env ps a n = ([], ReconcileResult.err) ∨
    (∃ p, scalePhase env ps a n = ([ReconcileOp.deletePod p], ReconcileResult.requeue)) ∨
    (∃ p, scalePhase env ps a n = ([ReconcileOp.createPod p], ReconcileResult.requeue)) := by
  simp only [scalePhase]
  split
  · cases h : List.take (n - ps.spec.replicas).toNat a with
    | nil =>
      simp only [deleteLoop]
      rcases scaleUpPhase_shape env ps n with h2 | h2 | h2 <;> rw [h2]
      · exact Or.inl rfl
      · exact Or.inr (Or.inl rfl)
      · exact Or.inr (Or.inr (Or.inr ⟨_, rfl⟩))
    | cons d ds =>
      simp only [deleteLoop]
      cases hd : env.deleteOk
      · simp [hd]
      · exact Or.inr (Or.inr (Or.inl ⟨d, rfl⟩))
  · rcases scaleUpPhase_shape env ps n with h2 | h2 | h2 <;> rw [h2]
    · exact Or.inl rfl
    · exact Or.inr (Or.inl rfl)
    · exact Or.inr (Or.inr (Or.inr ⟨_, rfl⟩))

/-- A scaling decision whose result is done performed no store call. -/
theorem scalePhase_snd_done (env : Env) (ps : PodSet) (a : List Pod) (n : Int)
    (h : (scalePhase env ps a n).snd = ReconcileResult.done) :
    scalePhase env ps a n = ([], ReconcileResult.done) := by
  rcases scalePhase_shape env ps a n with h2 | h2 | ⟨p, h2⟩ | ⟨p, h2⟩ <;>
    rw [h2] at h ⊢ <;> simp_all

/-- The scaling decision never performs both a creation and a deletion. -/
theorem scalePhase_not_both (env : Env) (ps : PodSet) (a : List Pod) (n : Int) :
    (((scalePhase env ps a n).fst.any ReconcileOp.isCreate) &&
      ((scalePhase env ps a n).fst.any ReconcileOp.isDelete)) = false := by
  rcases scalePhase_shape env ps a n with h2 | h2 | ⟨p, h2⟩ | ⟨p, h2⟩ <;> rw [h2] <;> rfl

/-- The scaling decision never performs a status update. -/
theorem scalePhase_no_update (env : Env) (ps : PodSet) (a : List Pod) (n : Int) :
    ((scalePhase env ps a n).fst.any ReconcileOp.isUpdate) = false := by
  rcases scalePhase_shape env ps a n with h2 | h2 | ⟨p, h2⟩ | ⟨p, h2⟩ <;> rw [h2] <;> rfl

/-- Hence the scaling decision leaves the stored PodSet object unchanged. -/
theorem finalPodSet_scalePhase (env : Env) (ps : PodSet) (a : List Pod) (n : Int)
    (ps0 : PodSet) : finalPodSet ps0 (scalePhase env ps a n).fst = ps0 := by
  rcases scalePhase_shape env ps a n with h2 | h2 | ⟨p, h2⟩ | ⟨p, h2⟩ <;> rw [h2] <;> rfl

/-- No update op ever sits in the scaling decision's op list. -/
theorem scalePhase_no_update_mem (env : Env) (ps : PodSet) (a : List Pod) (n : Int)
    (ps2 : PodSet) (h : ReconcileOp.updateStatus ps2 ∈ (scalePhase env ps a n).fst) :
    False := by
  have h2 := scalePhase_no_update env ps a n
  rw [List.any_eq_false] at h2
  exact h2 _ h rfl

/-- Unfolding of a pass that found its PodSet and listed pods successfully. -/
theorem reconcile_found (env : Env) (ps : PodSet) (items : List Pod)
    (hg : env.get = GetResult.found ps) (hl : env.list = Except.ok items) :
    reconcile env =
      if ps.status ≠ computeStatus items then
        if !env.updateOk then
          { ops := [ReconcileOp.listPods ps.nspace (podSetLabels ps)]
            result := ReconcileResult.err }
        else
          { ops := ReconcileOp.listPods ps.nspace (podSetLabels ps) ::
              ReconcileOp.updateStatus { ps with status := computeStatus items } ::
              (scalePhase env { ps with status := computeStatus items } (availablePods items)
                ((availablePods items).length : Int)).fst
            result := (scalePhase env { ps with status := computeStatus items }
              (availablePods items) ((availablePods items).length : Int)).snd }
      else
        { ops := ReconcileOp.listPods ps.nspace (podSetLabels ps) ::
            (scalePhase env ps (availablePods items) ((availablePods items).length : Int)).fst
          result := (scalePhase env ps (availablePods items)
            ((availablePods items).length : Int)).snd } := by
  simp only [reconcile, hg, hl]

/-- The code's availability test agrees pointwise with the specification's
predicate. -/
theorem codeAvail_eq_claim (pod : Pod) :
    (if pod.metadata.deletionTimestamp ≠ none then false
     else decide (pod.status.phase = "Running") || decide (pod.status.phase = "Pending")) =
    claimAvailable pod := by
  by_cases h : pod.metadata.deletionTimestamp = none <;>
    simp [claimAvailable, h, Bool.or_comm]

/-- The available-pods loop is the filter by the specification's predicate. -/
theorem availablePods_eq_filter (items : List Pod) :
    availablePods items = items.filter claimAvailable := by
  unfold availablePods
  exact List.filter_congr fun pod _ => codeAvail_eq_claim pod

/-- When no more pods are available than desired, the scale-down branch is
skipped. -/
theorem scalePhase_of_le (env : Env) (ps : PodSet) (a : List Pod) (n : Int)
    (hn : n ≤ ps.spec.replicas) :
    scalePhase env ps a n = scaleUpPhase env ps n := by
  simp only [scalePhase]
  rw [if_neg (by omega)]

/-- When fewer pods are available than desired and the owner reference
attaches, the scale-up branch creates exactly the factory pod or aborts. -/
theorem scaleUpPhase_of_lt (env : Env) (ps : PodSet) (n : Int)
    (hn : n < ps.spec.replicas) (howner : env.setOwnerOk = true) :
    scaleUpPhase env ps n =
      if env.createOk then
        ([ReconcileOp.createPod (setControllerReference ps (newPodForCR ps))],
          ReconcileResult.requeue)
      else ([], ReconcileResult.err) := by
  cases hc : env.createOk <;> simp [scaleUpPhase, howner, hc, if_pos hn]

/-- Projection of the fault-free environment: the fetch result for a stored
PodSet. -/
theorem envOfStore_get_some (s : Store) (ps : PodSet) (h : s.podset = some ps) :
    (envOfStore s).get = GetResult.found ps := by simp [envOfStore, h]

/-- Projection of the fault-free environment: the listing result for a stored
PodSet. -/
theorem envOfStore_list_some (s : Store) (ps : PodSet) (h : s.podset = some ps) :
    (envOfStore s).list = Except.ok (listedPods s ps) := by simp [envOfStore, h]

/-- The scaling decision only reads the environment's success flags. -/
theorem scalePhase_congr (e1 e2 : Env) (hd : e1.deleteOk = e2.deleteOk)
    (ho : e1.setOwnerOk = e2.setOwnerOk) (hc : e1.createOk = e2.createOk)
    (ps : PodSet) (a : List Pod) (n : Int) :
    scalePhase e1 ps a n = scalePhase e2 ps a n := by
  simp only [scalePhase, scaleUpPhase, deleteLoop, hd, ho, hc]

/-- In a fault-free environment the failing-update branch is never taken. -/
theorem ite_envOfStore_upd (s : Store) (a b : ReconcileOutcome) :
    (if (!(envOfStore s).updateOk) = true then a else b) = b := rfl

/-- A pass over a store with no PodSet object terminates done with no store
call at all. -/
theorem step_podset_none (s : Store) (hps : s.podset = none) :
    step s = { ops := [], result := ReconcileResult.done } := by
  simp [step, reconcile, envOfStore, hps]

/-- A done pass whose stored status already matched performed only the list
read. -/
theorem step_done_eq_branch (s : Store) (ps : PodSet) (hps : s.podset = some ps)
    (hst : ps.status = computeStatus (listedPods s ps))
    (h : (step s).result = ReconcileResult.done) :
    step s = { ops := [ReconcileOp.listPods ps.nspace (podSetLabels ps)],
               result := ReconcileResult.done } := by
  have hr : step s =
      { ops := ReconcileOp.listPods ps.nspace (podSetLabels ps) ::
          (scalePhase (envOfStore s) ps (availablePods (listedPods s ps))
            ((availablePods (listedPods s ps)).length : Int)).fst
        result := (scalePhase (envOfStore s) ps (availablePods (listedPods s ps))
          ((availablePods (listedPods s ps)).length : Int)).snd } := by
    simp only [step]
    rw [reconcile_found (envOfStore s) ps (listedPods s ps)
      (envOfStore_get_some s ps hps) (envOfStore_list_some s ps hps), if_neg (by simp [hst])]
  rw [hr] at h
  have hsc := scalePhase_snd_done _ _ _ _ h
  rw [hr, hsc]

/-- A done pass whose stored status differed performed the list read and the
status update, nothing else. -/
theorem step_done_ne_branch (s : Store) (ps : PodSet) (hps : s.podset = some ps)
    (hst : ps.status ≠ computeStatus (listedPods s ps))
    (h : (step s).result = ReconcileResult.done) :
    step s =
      { ops := [ReconcileOp.listPods ps.nspace (podSetLabels ps),
          ReconcileOp.updateStatus { ps with status := computeStatus (listedPods s ps) }],
        result := ReconcileResult.done } := by
  have hr : step s =
      { ops := ReconcileOp.listPods ps.nspace (podSetLabels ps) ::
          ReconcileOp.updateStatus { ps with status := computeStatus (listedPods s ps) } ::
          (scalePhase (envOfStore s) { ps with status := computeStatus (listedPods s ps) }
            (availablePods (listedPods s ps))
            ((availablePods (listedPods s ps)).length : Int)).fst
        result := (scalePhase (envOfStore s)
          { ps with status := computeStatus (listedPods s ps) }
          (availablePods (listedPods s ps))
          ((availablePods (listedPods s ps)).length : Int)).snd } := by
    simp only [step]
    rw [reconcile_found (envOfStore s) ps (listedPods s ps)
      (envOfStore_get_some s ps hps) (envOfStore_list_some s ps hps), if_pos hst,
      ite_envOfStore_upd]
  rw [hr] at h
  have hsc := scalePhase_snd_done _ _ _ _ h
  rw [hr, hsc]

/-- In a done pass whose stored status differed, the scaling decision itself
was a no-op. -/
theorem step_done_ne_scale (s : Store) (ps : PodSet) (hps : s.podset = some ps)
    (hst : ps.status ≠ computeStatus (listedPods s ps))
    (h : (step s).result = ReconcileResult.done) :
    scalePhase (envOfStore s) { ps with status := computeStatus (listedPods s ps) }
      (availablePods (listedPods s ps))
      ((availablePods (listedPods s ps)).length : Int) = ([], ReconcileResult.done) := by
  have hr : step s =
      { ops := ReconcileOp.listPods ps.nspace (podSetLabels ps) ::
          ReconcileOp.updateStatus { ps with status := computeStatus (listedPods s ps) } ::
          (scalePhase (envOfStore s) { ps with status := computeStatus (listedPods s ps) }
            (availablePods (listedPods s ps))
            ((availablePods (listedPods s ps)).length : Int)).fst
        result := (scalePhase (envOfStore s)
          { ps with status := computeStatus (listedPods s ps) }
          (availablePods (listedPods s ps))
          ((availablePods (listedPods s ps)).length : Int)).snd } := by
    simp only [step]
    rw [reconcile_found (envOfStore s) ps (listedPods s ps)
      (envOfStore_get_some s ps hps) (envOfStore_list_some s ps hps), if_pos hst,
      ite_envOfStore_upd]
  rw [hr] at h
  exact scalePhase_snd_done _ _ _ _ h

/-- A pass over a store whose recorded status matches and whose scaling
decision is a no-op yields done with only the list read. -/
theorem step_statusFixed (s : Store) (ps : PodSet) (hps : s.podset = some ps)
    (hst : ps.status = computeStatus (listedPods s ps))
    (hsc : scalePhase (envOfStore s) ps (availablePods (listedPods s ps))
      ((availablePods (listedPods s ps)).length : Int) = ([], ReconcileResult.done)) :
    step s =
      { ops := [ReconcileOp.listPods ps.nspace (podSetLabels ps)]
        result := ReconcileResult.done } := by
  have hr : step s =
      { ops := ReconcileOp.listPods ps.nspace (podSetLabels ps) ::
          (scalePhase (envOfStore s) ps (availablePods (listedPods s ps))
            ((availablePods (listedPods s ps)).length : Int)).fst
        result := (scalePhase (envOfStore s) ps (availablePods (listedPods s ps))
          ((availablePods (listedPods s ps)).length : Int)).snd } := by
    simp only [step]
    rw [reconcile_found (envOfStore s) ps (listedPods s ps)
      (envOfStore_get_some s ps hps) (envOfStore_list_some s ps hps), if_neg (by simp [hst])]
  rw [hr, hsc]

/-- C1 (code behaviour at the failing input): with five available Running
pods and a desired count of 2, one fault-free pass deletes exactly ONE pod
(the head of the deterministic prefix) and requeues, instead of the three
excess pods the claim describes — the source returns requeue from inside the
delete loop (line 125), so the loop body runs at most once. -/
theorem C1_oneDeletePerPass :
    (((availablePods fivePods).length : Int) = 5) ∧ (scaleDownPS.spec.replicas = 2) ∧
    (reconcile scaleDownEnv).result = ReconcileResult.requeue ∧
    ((reconcile scaleDownEnv).ops.countP ReconcileOp.isDelete = 1) := by decide

/-- C2 (counterexample to the claim as stated): in a pass where 5 pods are
available against 2 desired and persisting the status fails — while delete
and create calls would succeed if attempted — the pass surfaces the error
and performs NO corrective action at all, contradicting the claim that the
scaling action is still attempted in that pass. -/
theorem C2_counterexample :
    (((availablePods fivePods).length : Int) > scaleDownPS.spec.replicas) ∧
    (reconcile statusFailEnv).result = ReconcileResult.err ∧
    ((reconcile statusFailEnv).ops.any ReconcileOp.isDelete) = false ∧
    ((reconcile statusFailEnv).ops.any ReconcileOp.isCreate) = false := by decide

/-- C2 (amended): for every reconcile pass in which the recomputed status
differs and persisting it fails, the pass surfaces a TransientError and
terminates immediately; no corrective scaling action (create or delete) is
attempted in that pass. -/
theorem C2_statusUpdateFailureAborts (env : Env) (ps : PodSet) (items : List Pod)
    (hg : env.get = GetResult.found ps) (hl : env.list = Except.ok items)
    (hne : ps.status ≠ computeStatus items) (hupd : env.updateOk = false) :
    (reconcile env).result = ReconcileResult.err ∧
    ((reconcile env).ops.any ReconcileOp.isCreate) = false ∧
    ((reconcile env).ops.any ReconcileOp.isDelete) = false := by
  rw [reconcile_found env ps items hg hl, if_pos hne, hupd]
  exact ⟨rfl, rfl, rfl⟩

/-- C2 (witness for the amended claim): the amended behaviour at the concrete
failing-update scenario. -/
theorem C2_amended_witness :
    (reconcile statusFailEnv).result = ReconcileResult.err ∧
    ((reconcile statusFailEnv).ops.any ReconcileOp.isCreate) = false ∧
    ((reconcile statusFailEnv).ops.any ReconcileOp.isDelete) = false :=
  C2_statusUpdateFailureAborts statusFailEnv scaleDownPS fivePods rfl rfl (by decide) rfl

/-- C3: the Status Calculator counts exactly the pods with a null deletion
marker and phase Pending or Running, collects exactly those pods' names in
input order, excludes every pod with a non-null deletion marker (whatever
its phase) and every pod in phase Failed, Succeeded or Unknown, and maps the
empty list to an empty status rather than an error. -/
theorem C3_statusCalculator (items : List Pod) :
    ((computeStatus items).availableReplicas = ((items.countP claimAvailable : Nat) : Int)) ∧
    ((computeStatus items).podNames =
      (items.filter claimAvailable).map fun pod => pod.metadata.name) ∧
    (((availablePods items).any fun pod => decide (pod.metadata.deletionTimestamp ≠ none)) = false) ∧
    (((availablePods items).any fun pod =>
        decide (pod.status.phase = "Failed") || decide (pod.status.phase = "Succeeded") ||
          decide (pod.status.phase = "Unknown")) = false) ∧
    computeStatus [] = { podNames := [], availableReplicas := 0 } := by
  refine ⟨?_, ?_, ?_, ?_, rfl⟩
  · simp only [computeStatus, availablePods_eq_filter, List.countP_eq_length_filter]
  · simp only [computeStatus, availablePods_eq_filter]
  · rw [availablePods_eq_filter]
    simp only [List.any_eq_false, List.mem_filter]
    rintro pod ⟨hmem, hpred⟩
    simp only [claimAvailable, Bool.and_eq_true, decide_eq_true_eq] at hpred
    simp [hpred.1]
  · rw [availablePods_eq_filter]
    simp only [List.any_eq_false, List.mem_filter]
    rintro pod ⟨hmem, hpred⟩
    simp only [claimAvailable, Bool.and_eq_true, Bool.or_eq_true, decide_eq_true_eq] at hpred
    rcases hpred.2 with h | h <;> rw [h] <;> decide

/-- C4: after any pass that found its PodSet, listed its owned pods, and
completed without error, the PodSet object held by the store (original or
updated by the pass) records availableReplicas equal to the number of listed
pods with phase Pending or Running and no deletion marker, as of the listing
snapshot. -/
theorem C4_invariant (env : Env) (ps : PodSet) (items : List Pod)
    (hg : env.get = GetResult.found ps) (hl : env.list = Except.ok items)
    (hok : (reconcile env).result ≠ ReconcileResult.err) :
    (finalPodSet ps (reconcile env).ops).status.availableReplicas =
      ((items.countP claimAvailable : Nat) : Int) := by
  rw [reconcile_found env ps items hg hl] at hok ⊢
  by_cases hst : ps.status = computeStatus items
  · rw [if_neg (by simp [hst])] at hok ⊢
    simp only [finalPodSet]
    rw [finalPodSet_scalePhase, hst]
    simp [computeStatus, availablePods_eq_filter, List.countP_eq_length_filter]
  · rw [if_pos hst] at hok ⊢
    cases hu : env.updateOk
    · rw [hu] at hok
      exact absurd rfl hok
    · simp only [hu, Bool.not_true]
      rw [if_neg (fun h => Bool.noConfusion h)]
      simp only [finalPodSet]
      rw [finalPodSet_scalePhase]
      simp [computeStatus, availablePods_eq_filter, List.countP_eq_length_filter]

/-- C4 (witness): the invariant at the concrete scale-down pass, which ends
in requeue, not an error. -/
theorem C4_witness :
    (reconcile scaleDownEnv).result ≠ ReconcileResult.err ∧
    (finalPodSet scaleDownPS (reconcile scaleDownEnv).ops).status.availableReplicas =
      ((fivePods.countP claimAvailable : Nat) : Int) :=
  ⟨by decide, C4_invariant scaleDownEnv scaleDownPS fivePods rfl rfl (by decide)⟩

/-- C5: no reconcile pass, whatever the fetched PodSet, pod list and store
faults, both creates a pod and deletes a pod. -/
theorem C5_neverCreateAndDelete (env : Env) :
    (((reconcile env).ops.any ReconcileOp.isCreate) &&
      ((reconcile env).ops.any ReconcileOp.isDelete)) = false := by
  cases hg : env.get with
  | notFound => simp [reconcile, hg]
  | getError => simp [reconcile, hg]
  | found ps =>
    cases hl : env.list with
    | error e => simp [reconcile, hg, hl]
    | ok items =>
      rw [reconcile_found env ps items hg hl]
      by_cases hst : ps.status = computeStatus items
      · rw [if_neg (by simp [hst])]
        simp only [List.any_cons, ReconcileOp.isCreate, ReconcileOp.isDelete, Bool.false_or]
        exact scalePhase_not_both ..
      · rw [if_pos (by simp [hst])]
        cases hu : env.updateOk
        · rfl
        · simp only [Bool.not_true, if_neg, List.any_cons, ReconcileOp.isCreate,
            ReconcileOp.isDelete, Bool.false_or]
          exact scalePhase_not_both ..

/-- C6: in every pass that reaches the scaling decision (status persisted or
unchanged, owner reference attaching) with fewer available pods than
desired, exactly one pod is created — never the full deficit — with requeue
on success and an error surfaced on creation failure, and no pod is
deleted. -/
theorem C6_scaleUpSinglePod (env : Env) (ps : PodSet) (items : List Pod)
    (hg : env.get = GetResult.found ps) (hl : env.list = Except.ok items)
    (hupd : env.updateOk = true) (howner : env.setOwnerOk = true)
    (hlt : ((availablePods items).length : Int) < ps.spec.replicas) :
    (env.createOk = true →
      ((reconcile env).ops.countP ReconcileOp.isCreate = 1 ∧
        (reconcile env).result = ReconcileResult.requeue)) ∧
    (env.createOk = false → (reconcile env).result = ReconcileResult.err) ∧
    ((reconcile env).ops.countP ReconcileOp.isDelete = 0) := by
  rw [reconcile_found env ps items hg hl]
  by_cases hst : ps.status = computeStatus items
  · rw [if_neg (by simp [hst])]
    rw [scalePhase_of_le env ps _ _ (le_of_lt hlt), scaleUpPhase_of_lt env ps _ hlt howner]
    cases hc : env.createOk <;>
      simp [ReconcileOp.isCreate, ReconcileOp.isDelete, List.countP_cons]
  · rw [if_pos (by simp [hst]), hupd]
    have hrep : ({ ps with status := computeStatus items } : PodSet).spec.replicas =
        ps.spec.replicas := rfl
    rw [scalePhase_of_le env _ _ _ (by rw [hrep]; exact le_of_lt hlt),
      scaleUpPhase_of_lt env _ _ (by rw [hrep]; exact hlt) howner]
    cases hc : env.createOk <;>
      simp [ReconcileOp.isCreate, ReconcileOp.isDelete, List.countP_cons]

/-- C6 (witness): with no pods and one desired replica, the pass creates one
pod, requeues, and deletes nothing. -/
theorem C6_witness :
    ((reconcile upEnv).ops.countP ReconcileOp.isCreate = 1 ∧
      (reconcile upEnv).result = ReconcileResult.requeue) ∧
    ((reconcile upEnv).ops.countP ReconcileOp.isDelete = 0) :=
  ⟨(C6_scaleUpSinglePod upEnv demoPS [] rfl rfl rfl rfl (by decide)).1 rfl,
    (C6_scaleUpSinglePod upEnv demoPS [] rfl rfl rfl rfl (by decide)).2.2⟩

/-- C7: a pass whose fetch reports the PodSet absent terminates done, with no
error and no store call at all (no list, create, delete or status update). -/
theorem C7_missingPodSet (env : Env) (h : env.get = GetResult.notFound) :
    reconcile env = { ops := [], result := ReconcileResult.done } := by
  simp only [reconcile, h]

/-- C7 (witness): the absent-PodSet outcome at a concrete environment. -/
theorem C7_witness :
    reconcile { get := GetResult.notFound, list := Except.error (), updateOk := true,
                setOwnerOk := true, createOk := true, deleteOk := true } =
      { ops := [], result := ReconcileResult.done } :=
  C7_missingPodSet _ rfl

/-- C8: reconciliation is level-triggered and idempotent over a fault-free
store: a pass is a pure function of the external state (same PodSet and same
pod list give the same outcome), and once a pass completes with done, every
subsequent pass — the store being changed only by the passes themselves —
again completes with done and performs no create, delete or status update;
the store reached after the done pass is a fixed point. -/
theorem C8_levelTriggered (s : Store) (h : (step s).result = ReconcileResult.done) :
    (∀ t : Store, t.podset = s.podset → t.pods = s.pods → step t = step s) ∧
    (∀ n : Nat,
      (step (Nat.iterate postStore n (postStore s))).result = ReconcileResult.done ∧
      ((step (Nat.iterate postStore n (postStore s))).ops.any
        ReconcileOp.isMutation) = false) ∧
    postStore (postStore s) = postStore s := by
  refine ⟨?_, ?_⟩
  · intro t h1 h2
    have ht : t = s := by cases t; cases s; simp_all
    rw [ht]
  · have key : (step (postStore s)).result = ReconcileResult.done ∧
        ((step (postStore s)).ops.any ReconcileOp.isMutation) = false ∧
        postStore (postStore s) = postStore s := by
      cases hps : s.podset with
      | none =>
        have hstep : step s = { ops := [], result := ReconcileResult.done } :=
          step_podset_none s hps
        have hpost : postStore s = s := by
          simp only [postStore, hstep]
          rfl
        refine ⟨?_, ?_, ?_⟩
        · rw [hpost]; exact h
        · rw [hpost, hstep]; rfl
        · rw [hpost]; exact hpost
      | some ps =>
        by_cases hst : ps.status = computeStatus (listedPods s ps)
        · have hstep : step s =
              { ops := [ReconcileOp.listPods ps.nspace (podSetLabels ps)]
                result := ReconcileResult.done } := step_done_eq_branch s ps hps hst h
          have hpost : postStore s = s := by
            simp only [postStore, hstep]
            rfl
          refine ⟨?_, ?_, ?_⟩
          · rw [hpost]; exact h
          · rw [hpost, hstep]; rfl
          · rw [hpost]; exact hpost
        · have hsc := step_done_ne_scale s ps hps hst h
          have hstep : step s =
              { ops := [ReconcileOp.listPods ps.nspace (podSetLabels ps),
                  ReconcileOp.updateStatus (updatedPS s ps)]
                result := ReconcileResult.done } := step_done_ne_branch s ps hps hst h
          have hpost : postStore s = updatedStore s ps := by
            simp only [postStore, hstep]
            rfl
          have hsc2 : scalePhase (envOfStore (updatedStore s ps)) (updatedPS s ps)
              (availablePods (listedPods (updatedStore s ps) (updatedPS s ps)))
              ((availablePods (listedPods (updatedStore s ps) (updatedPS s ps))).length : Int) =
              ([], ReconcileResult.done) := by
            rw [scalePhase_congr (envOfStore (updatedStore s ps)) (envOfStore s) rfl rfl rfl]
            exact hsc
          have hstep2 := step_statusFixed (updatedStore s ps) (updatedPS s ps) rfl rfl hsc2
          refine ⟨?_, ?_, ?_⟩
          · rw [hpost, hstep2]
          · rw [hpost, hstep2]; rfl
          · rw [hpost]
            simp only [postStore, hstep2]
            rfl
    refine ⟨?_, key.2.2⟩
    intro n
    have hiter : Nat.iterate postStore n (postStore s) = postStore s := by
      induction n with
      | zero => rfl
      | succ k ih => rw [Function.iterate_succ_apply', ih, key.2.2]
    rw [hiter]
    exact ⟨key.1, key.2.1⟩

/-- C8 (witness): over a converged concrete store, the pass after a done pass
is again done with no mutation. -/
theorem C8_witness :
    (step (Nat.iterate postStore 0 (postStore storeDone))).result =
      ReconcileResult.done ∧
    ((step (Nat.iterate postStore 0 (postStore storeDone))).ops.any
      ReconcileOp.isMutation) = false :=
  (C8_levelTriggered storeDone (by decide)).2.1 0

/-- C9: the Pod Factory is a pure function of the owner's identity (name and
namespace); its output carries exactly the ownership label pair used as the
listing filter, lives in the owner's namespace, and is name-generated with
the owner's name as prefix, hence it is matched by the label selector the
reconciler lists with. -/
theorem C9_podFactory (cr cr2 : PodSet) (hname : cr2.name = cr.name)
    (hns : cr2.nspace = cr.nspace) :
    ((newPodForCR cr).metadata.labels = [("app", cr.name), ("version", "v0.1")]) ∧
    ((newPodForCR cr).metadata.nspace = cr.nspace) ∧
    ((newPodForCR cr).metadata.generateName = cr.name ++ "-pod") ∧
    (∃ rest, (newPodForCR cr).metadata.generateName = cr.name ++ rest) ∧
    (matchesLabels (podSetLabels cr) (newPodForCR cr) = true) ∧
    (newPodForCR cr2 = newPodForCR cr) := by
  refine ⟨rfl, rfl, rfl, ⟨"-pod", rfl⟩, ?_, ?_⟩
  · simp [matchesLabels, podSetLabels, newPodForCR, List.lookup]
  · simp [newPodForCR, podSetLabels, hname, hns]

/-- C9 (witness): the factory pod for a concrete PodSet matches the listing
selector and namespace. -/
theorem C9_witness :
    (matchesLabels (podSetLabels demoPS) (newPodForCR demoPS) = true) ∧
    ((newPodForCR demoPS).metadata.nspace = "ns1") :=
  ⟨(C9_podFactory demoPS demoPS rfl rfl).2.2.2.2.1, (C9_podFactory demoPS demoPS rfl rfl).2.1⟩

/-- C10: every status the controller writes has availableReplicas equal to
the length of podNames, and podNames is exactly the list of names of the
pods counted as available, in order — an equality between the two status
fields the specification never states. -/
theorem C10_statusFieldsAgree (env : Env) (ps : PodSet) (items : List Pod) (ps2 : PodSet)
    (hg : env.get = GetResult.found ps) (hl : env.list = Except.ok items)
    (hmem : ReconcileOp.updateStatus ps2 ∈ (reconcile env).ops) :
    ps2.status.availableReplicas = (ps2.status.podNames.length : Int) ∧
    ps2.status.podNames = (availablePods items).map fun pod => pod.metadata.name := by
  rw [reconcile_found env ps items hg hl] at hmem
  by_cases hst : ps.status = computeStatus items
  · rw [if_neg (by simp [hst])] at hmem
    rcases List.mem_cons.mp hmem with h | h
    · exact ReconcileOp.noConfusion h
    · exact absurd h (fun h2 => scalePhase_no_update_mem _ _ _ _ _ h2)
  · rw [if_pos hst] at hmem
    cases hu : env.updateOk
    · rw [hu] at hmem
      rcases List.mem_singleton.mp hmem with h
      exact ReconcileOp.noConfusion h
    · rw [hu] at hmem
      rcases List.mem_cons.mp hmem with h | hmem2
      · exact ReconcileOp.noConfusion h
      · rcases List.mem_cons.mp hmem2 with h | h
        · injection h with h2
          subst h2
          constructor
          · simp [computeStatus]
          · rfl
        · exact absurd h (fun h2 => scalePhase_no_update_mem _ _ _ _ _ h2)

/-- C10 (witness): the status written by the concrete scale-down pass has
matching fields. -/
theorem C10_witness :
    ({ scaleDownPS with status := computeStatus fivePods } : PodSet).status.availableReplicas =
      (({ scaleDownPS with status := computeStatus fivePods } : PodSet).status.podNames.length : Int) ∧
    ({ scaleDownPS with status := computeStatus fivePods } : PodSet).status.podNames =
      (availablePods fivePods).map fun pod => pod.metadata.name :=
  C10_statusFieldsAgree scaleDownEnv scaleDownPS fivePods
    { scaleDownPS with status := computeStatus fivePods } rfl rfl (by decide)
